import Mathlib

/-!
Shallow embedding of `src/static/setup.py` (function
`setup_merged_jupyter_environment` and its inner `handle_termination`).

Filesystem paths are modelled as lists of path segments (`FsPath`); the
string rendering of a `pathlib.Path` is the `/`-joined segment list, so
"normalized string equality" of paths is equality of segment lists.
The filesystem itself enters the model through two oracles:
`ex : FsPath → Bool` (the result of `Path.exists()`) and
`le : FsPath → List Entry` (the result of `Path.rglob("*")` on a layer
root, each entry carrying its path relative to that root, the result of
`item.is_file()`, and the inode of the underlying file).  `os.link`
stores the source inode in the destination tree — no content is copied.
-/

namespace JuvSetup

/-- A filesystem path as its list of segments (an absolute path starts
with the empty segment, mirroring `pathlib`'s root part). -/
abbrev FsPath := List String

/-- `path.name`: the final path segment (empty for the root path). -/
def pathName (p : FsPath) : String := p.getLastD ""

/-- `path.parent`: drop the final segment. -/
def parentDir (p : FsPath) : FsPath := p.dropLast

/-- `path.parent.parent.parent`: ascend three levels from a
`site-packages` entry to its virtual-environment root. -/
def venv_path (p : FsPath) : FsPath := parentDir (parentDir (parentDir p))

/-- `Path(sys.prefix) / "share" / "jupyter"`. -/
def root_data_dir (pfx : FsPath) : FsPath := pfx ++ ["share", "jupyter"]

/-- `venv_path / "etc" / "jupyter"`. -/
def config_dir (venv : FsPath) : FsPath := venv ++ ["etc", "jupyter"]

/-- `venv_path / "share" / "jupyter"`. -/
def data_dir (venv : FsPath) : FsPath := venv ++ ["share", "jupyter"]

/-- The `for path in map(Path, sys.path)` loop of
`setup_merged_jupyter_environment` (lines 35-44): returns the pair
(`config_paths`, discovered data dirs), each in encounter order.
A non-`site-packages` entry is skipped; a config path is appended
unconditionally; a data dir is appended only when it exists on disk and
differs from `root_data_dir`.  Skipping is silent: the function is
total, no branch produces an error. -/
def scanSysPath (ex : FsPath → Bool) (root : FsPath) : List FsPath → List FsPath × List FsPath
  | [] => ([], [])
  | path :: rest =>
    let acc := scanSysPath ex root rest
    if pathName path = "site-packages" then
      if ex (data_dir (venv_path path)) = false ∨ data_dir (venv_path path) = root then
        (config_dir (venv_path path) :: acc.1, acc.2)
      else
        (config_dir (venv_path path) :: acc.1, data_dir (venv_path path) :: acc.2)
    else acc

/-- The resolver's two outputs: `config_paths` and `jupyter_paths`. -/
structure ResolvedLayers where
  config_paths : List FsPath
  jupyter_paths : List FsPath
deriving Repr, DecidableEq

/-- Lines 32-44: `jupyter_paths = [root_data_dir]` followed by the scan
of `sys.path`; the canonical root's data path heads the list with no
existence check applied to it. -/
def resolve_layers (ex : FsPath → Bool) (pfx : FsPath) (sysPath : List FsPath) : ResolvedLayers :=
  ⟨(scanSysPath ex (root_data_dir pfx) sysPath).1,
   root_data_dir pfx :: (scanSysPath ex (root_data_dir pfx) sysPath).2⟩

/-- One entry produced by `path.rglob("*")` on a layer root: its path
relative to the root, the result of `item.is_file()`, and the inode of
the underlying file.  Directories, symlinks and other entries for which
`is_file()` is false carry `isFile = false`. -/
structure Entry where
  rel : FsPath
  isFile : Bool
  ino : Nat
deriving Repr, DecidableEq

/-- The merged overlay directory: an association list from relative path
to the inode the destination entry was hard-linked to (most recent write
first; a key is written at most once). -/
abbrev MergedTree := List (FsPath × Nat)

/-- Lines 51-54: `os.link(item, dest)` under `try/except FileExistsError:
pass` — if the destination path exists the attempt is swallowed and the
first-written file stays; otherwise a hard link to the source inode is
created. -/
def linkFile (dest : MergedTree) (rel : FsPath) (ino : Nat) : MergedTree :=
  match dest.lookup rel with
  | some _ => dest
  | none => (rel, ino) :: dest

/-- Lines 47-54, one layer: walk the layer's `rglob` output and project
every entry with `is_file()` true; other entries are skipped. -/
def mergeLayer (dest : MergedTree) (entries : List Entry) : MergedTree :=
  entries.foldl (fun d e => if e.isFile then linkFile d e.rel e.ino else d) dest

/-- Line 46: `for path in reversed(jupyter_paths)` — the layers are
processed last-to-first, starting from an empty destination. -/
def mergeLayers (le : FsPath → List Entry) (jupyter_paths : List FsPath) : MergedTree :=
  (jupyter_paths.reverse).foldl (fun d p => mergeLayer d (le p)) []

/-- The filesystem errors relevant to the projection step.
`fileExists` is Python's `FileExistsError`; the others are
representatives of every other `OSError`. -/
inductive FsError
  | fileExists
  | permissionDenied
  | crossDevice
  | diskFull
deriving Repr, DecidableEq

/-- Lines 49-54 with environmental faults made explicit: `mkdirFault` is
an error raised by `dest.parent.mkdir(...)` (outside the `try`, so it
always propagates), `linkFault` an error raised by `os.link` for
environmental reasons; only `FileExistsError` is caught by the
`except FileExistsError: pass` clause.  With no faults the behaviour is
that of `linkFile`. -/
def project_file (dest : MergedTree) (rel : FsPath) (ino : Nat)
    (mkdirFault : Option FsError) (linkFault : Option FsError) :
    Except FsError MergedTree :=
  match mkdirFault with
  | some e => .error e
  | none =>
    match linkFault with
    | some e => if e = .fileExists then .ok dest else .error e
    | none =>
      match dest.lookup rel with
      | some _ => .ok dest
      | none => .ok ((rel, ino) :: dest)

/-- The per-layer loop of lines 47-54 with faults: an uncaught error
aborts the walk (no recovery path). `faults` gives, per relative path,
the environmental mkdir and link faults for that projection. -/
def mergeLayerE (faults : FsPath → Option FsError × Option FsError)
    (dest : MergedTree) : List Entry → Except FsError MergedTree
  | [] => .ok dest
  | e :: rest =>
    if e.isFile then
      match project_file dest e.rel e.ino (faults e.rel).1 (faults e.rel).2 with
      | .error err => .error err
      | .ok d => mergeLayerE faults d rest
    else mergeLayerE faults dest rest

/-- `signal.SIGINT`. -/
def SIGINT : Nat := 2

/-- `signal.SIGTERM`. -/
def SIGTERM : Nat := 15

/-- Observable process state for the lifecycle manager: the merged
overlay directory's contents while it exists on disk (`none` once
removed; mid-population states carry a partial tree), and the exit
status once `sys.exit` has run. -/
structure SessionState where
  merged_dir : Option MergedTree
  exitCode : Option Nat
deriving Repr, DecidableEq

/-- Lines 25-27: `handle_termination(signum, frame)` runs
`temp_dir.cleanup()` (recursive removal of the merged overlay
directory, tolerant of partial population) and then `sys.exit(0)`;
nothing else runs afterwards. -/
def handle_termination (_signum : Nat) (_st : SessionState) : SessionState :=
  { merged_dir := none, exitCode := some 0 }

/-- Lines 29-30: `signal.signal(signal.SIGTERM, handle_termination)` and
`signal.signal(signal.SIGINT, handle_termination)` — exactly these two
signals are bound, both to the same handler. -/
def signal_handler (s : Nat) : Option (Nat → SessionState → SessionState) :=
  if s = SIGTERM ∨ s = SIGINT then some handle_termination else none

/-- Delivery of a signal at an arbitrary instruction boundary: the
registered handler (if any) runs on the current state. -/
def deliver_signal (s : Nat) (st : SessionState) : SessionState :=
  match signal_handler s with
  | some h => h s st
  | none => st

/-- `str(path)`: join the segments with `/`. -/
def renderPath (p : FsPath) : String := String.intercalate "/" p

/-- `os.pathsep` on POSIX. -/
def pathsep : String := ":"

/-- Lines 56-57: the two process-wide environment values published for
downstream consumption. -/
structure PublishedEnv where
  JUPYTER_DATA_DIR : String
  JUPYTER_CONFIG_PATH : String
deriving Repr, DecidableEq

/-- The whole of `setup_merged_jupyter_environment`, parametrised by the
filesystem oracles and the temporary directory's path: resolve layers,
merge them, publish `JUPYTER_DATA_DIR = str(merged_dir)` and
`JUPYTER_CONFIG_PATH = os.pathsep.join(map(str, config_paths))`. -/
def setup_merged_jupyter_environment (ex : FsPath → Bool) (le : FsPath → List Entry)
    (pfx : FsPath) (sysPath : List FsPath) (merged_dir : FsPath) :
    MergedTree × PublishedEnv :=
  let r := resolve_layers ex pfx sysPath
  (mergeLayers le r.jupyter_paths,
   ⟨renderPath merged_dir, String.intercalate pathsep (r.config_paths.map renderPath)⟩)

/-! Analysis helpers: a closed-form characterization of the merged
tree's lookup, proved against `mergeLayers` below. -/

/-- Left-biased choice on optional inodes. -/
def orO (a b : Option Nat) : Option Nat :=
  match a with
  | some v => some v
  | none => b

/-- The inode of the first entry of a layer walk that is a regular file
at relative path `q`, if any. -/
def layerFileAt (entries : List Entry) (q : FsPath) : Option Nat :=
  (entries.find? (fun e => e.isFile && e.rel == q)).map Entry.ino

/-- The inode the merge leaves at `q`: the file of the layer closest to
the END of `jupyter_paths` that has one (that layer is processed first
by the reversed loop, and the first writer wins). -/
def winnerAcross (le : FsPath → List Entry) : List FsPath → FsPath → Option Nat
  | [], _ => none
  | r :: rest, q => orO (winnerAcross le rest q) (layerFileAt (le r) q)

theorem orO_of_isSome (a b : Option Nat) (h : a.isSome) : orO a b = a := by
  cases a with
  | none => simp at h
  | some v => rfl

theorem orO_some_absorb (a : Option Nat) (x : Nat) (b : Option Nat) :
    orO (orO a (some x)) b = orO a (some x) := by
  cases a <;> rfl

theorem lookup_linkFile_self (d : MergedTree) (rel : FsPath) (ino : Nat) :
    (linkFile d rel ino).lookup rel = orO (d.lookup rel) (some ino) := by
  unfold linkFile
  cases h : d.lookup rel <;> simp [h, orO, List.lookup]

theorem lookup_linkFile_ne (d : MergedTree) (rel : FsPath) (ino : Nat) (q : FsPath)
    (h : ¬ rel = q) : (linkFile d rel ino).lookup q = d.lookup q := by
  unfold linkFile
  cases hl : d.lookup rel with
  | none =>
    have hqr : (q == rel) = false := by
      simp only [beq_eq_false_iff_ne, ne_eq]
      exact fun hh => h hh.symm
    simp [List.lookup, hqr]
  | some v => rfl

theorem layerFileAt_cons (e : Entry) (rest : List Entry) (q : FsPath) :
    layerFileAt (e :: rest) q
      = if e.isFile && (e.rel == q) then some e.ino else layerFileAt rest q := by
  unfold layerFileAt
  cases h : (e.isFile && (e.rel == q)) <;>
    simp [List.find?_cons, h]

theorem lookup_mergeLayer (entries : List Entry) (d : MergedTree) (q : FsPath) :
    (mergeLayer d entries).lookup q = orO (d.lookup q) (layerFileAt entries q) := by
  induction entries generalizing d with
  | nil =>
    cases h : d.lookup q <;> simp [mergeLayer, layerFileAt, orO, h]
  | cons e rest ih =>
    have step : mergeLayer d (e :: rest)
        = mergeLayer (if e.isFile then linkFile d e.rel e.ino else d) rest := rfl
    rw [step, ih, layerFileAt_cons]
    by_cases hf : e.isFile = true
    · by_cases hq : e.rel = q
      · subst hq
        simp only [hf, if_true, Bool.true_and, beq_self_eq_true]
        rw [lookup_linkFile_self, orO_some_absorb]
      · have hrq : (e.rel == q) = false := by simp [hq]
        simp only [hf, if_true]
        rw [lookup_linkFile_ne d e.rel e.ino q hq]
        simp [hrq]
    · have hf0 : e.isFile = false := by
        cases he : e.isFile
        · rfl
        · exact absurd he hf
      simp [hf0]

theorem mergeLayers_cons (le : FsPath → List Entry) (r : FsPath) (rest : List FsPath) :
    mergeLayers le (r :: rest) = mergeLayer (mergeLayers le rest) (le r) := by
  simp [mergeLayers, List.reverse_cons, List.foldl_append]

theorem lookup_mergeLayers (le : FsPath → List Entry) (jp : List FsPath) (q : FsPath) :
    (mergeLayers le jp).lookup q = winnerAcross le jp q := by
  induction jp with
  | nil => simp [mergeLayers, winnerAcross, List.lookup]
  | cons r rest ih =>
    rw [mergeLayers_cons, lookup_mergeLayer, ih]
    rfl

theorem winnerAcross_append (le : FsPath → List Entry) (l1 l2 : List FsPath) (q : FsPath) :
    winnerAcross le (l1 ++ l2) q = orO (winnerAcross le l2 q) (winnerAcross le l1 q) := by
  induction l1 with
  | nil => cases h : winnerAcross le l2 q <;> simp [winnerAcross, orO, h]
  | cons r rest ih =>
    show orO (winnerAcross le (rest ++ l2) q) (layerFileAt (le r) q)
        = orO (winnerAcross le l2 q) (orO (winnerAcross le rest q) (layerFileAt (le r) q))
    rw [ih]
    cases winnerAcross le l2 q <;> rfl

theorem winnerAcross_none (le : FsPath → List Entry) (l : List FsPath) (q : FsPath)
    (hall : ∀ r ∈ l, layerFileAt (le r) q = none) : winnerAcross le l q = none := by
  induction l with
  | nil => rfl
  | cons r rest ih =>
    have h1 := hall r (List.mem_cons_self r rest)
    have h2 := ih (fun x hx => hall x (List.mem_cons_of_mem r hx))
    simp [winnerAcross, h1, h2, orO]

theorem winnerAcross_isSome_of_mem (le : FsPath → List Entry) (l : List FsPath) (q : FsPath)
    (r : FsPath) (hr : r ∈ l) (h : (layerFileAt (le r) q).isSome) :
    (winnerAcross le l q).isSome := by
  induction l with
  | nil => simp at hr
  | cons a rest ih =>
    rcases List.mem_cons.mp hr with h1 | h2
    · subst h1
      cases hw : winnerAcross le rest q <;> cases hl : layerFileAt (le r) q <;>
        simp_all [winnerAcross, orO]
    · have hrest := ih h2
      cases hw : winnerAcross le rest q <;> simp_all [winnerAcross, orO]

theorem layerFileAt_isSome_iff (es : List Entry) (q : FsPath) :
    (layerFileAt es q).isSome ↔ ∃ e ∈ es, e.isFile = true ∧ e.rel = q := by
  unfold layerFileAt
  rw [Option.isSome_map', List.find?_isSome]
  constructor
  · rintro ⟨e, he, hp⟩
    simp only [Bool.and_eq_true, beq_iff_eq] at hp
    exact ⟨e, he, hp.1, hp.2⟩
  · rintro ⟨e, he, h1, h2⟩
    exact ⟨e, he, by simp [h1, h2]⟩

theorem layerFileAt_eq_some (es : List Entry) (q : FsPath) (n : Nat)
    (h : layerFileAt es q = some n) :
    ∃ e ∈ es, e.isFile = true ∧ e.rel = q ∧ e.ino = n := by
  unfold layerFileAt at h
  rcases Option.map_eq_some'.mp h with ⟨e, hf, hino⟩
  have hp := List.find?_some hf
  simp only [Bool.and_eq_true, beq_iff_eq] at hp
  exact ⟨e, List.mem_of_find?_eq_some hf, hp.1, hp.2, hino⟩

theorem winnerAcross_isSome_iff (le : FsPath → List Entry) (jp : List FsPath) (q : FsPath) :
    (winnerAcross le jp q).isSome ↔ ∃ r ∈ jp, ∃ e ∈ le r, e.isFile = true ∧ e.rel = q := by
  induction jp with
  | nil => simp [winnerAcross]
  | cons a rest ih =>
    constructor
    · intro h
      rcases hw : winnerAcross le rest q with _ | n
      · have ha : (layerFileAt (le a) q).isSome := by
          simp only [winnerAcross, hw, orO] at h
          exact h
        rcases (layerFileAt_isSome_iff (le a) q).mp ha with ⟨e, he, h1, h2⟩
        exact ⟨a, List.mem_cons_self a rest, e, he, h1, h2⟩
      · rcases ih.mp (by simp [hw]) with ⟨r, hr, e, he, h1, h2⟩
        exact ⟨r, List.mem_cons_of_mem a hr, e, he, h1, h2⟩
    · rintro ⟨r, hr, e, he, h1, h2⟩
      exact winnerAcross_isSome_of_mem le (a :: rest) q r hr
        ((layerFileAt_isSome_iff (le r) q).mpr ⟨e, he, h1, h2⟩)

theorem winnerAcross_eq_some (le : FsPath → List Entry) (jp : List FsPath) (q : FsPath)
    (n : Nat) (h : winnerAcross le jp q = some n) :
    ∃ r ∈ jp, ∃ e ∈ le r, e.isFile = true ∧ e.rel = q ∧ e.ino = n := by
  induction jp with
  | nil => simp [winnerAcross] at h
  | cons a rest ih =>
    rcases hw : winnerAcross le rest q with _ | m
    · have ha : layerFileAt (le a) q = some n := by
        simp only [winnerAcross, hw, orO] at h
        exact h
      rcases layerFileAt_eq_some (le a) q n ha with ⟨e, he, h1, h2, h3⟩
      exact ⟨a, List.mem_cons_self a rest, e, he, h1, h2, h3⟩
    · have hmn : m = n := by
        simp only [winnerAcross, hw, orO] at h
        exact (Option.some_inj.mp h)
      subst hmn
      rcases ih hw with ⟨r, hr, e, he, h1, h2, h3⟩
      exact ⟨r, List.mem_cons_of_mem a hr, e, he, h1, h2, h3⟩

theorem scanSysPath_cons_skip (ex : FsPath → Bool) (root path : FsPath) (rest : List FsPath)
    (hm : ¬ pathName path = "site-packages") :
    scanSysPath ex root (path :: rest) = scanSysPath ex root rest := by
  simp [scanSysPath, hm]

theorem scanSysPath_cons_drop (ex : FsPath → Bool) (root path : FsPath) (rest : List FsPath)
    (hm : pathName path = "site-packages")
    (hc : ex (data_dir (venv_path path)) = false ∨ data_dir (venv_path path) = root) :
    scanSysPath ex root (path :: rest)
      = (config_dir (venv_path path) :: (scanSysPath ex root rest).1,
         (scanSysPath ex root rest).2) := by
  simp [scanSysPath, hm, hc]

theorem scanSysPath_cons_keep (ex : FsPath → Bool) (root path : FsPath) (rest : List FsPath)
    (hm : pathName path = "site-packages")
    (hc : ¬ (ex (data_dir (venv_path path)) = false ∨ data_dir (venv_path path) = root)) :
    scanSysPath ex root (path :: rest)
      = (config_dir (venv_path path) :: (scanSysPath ex root rest).1,
         data_dir (venv_path path) :: (scanSysPath ex root rest).2) := by
  simp [scanSysPath, hm, hc]

theorem scanSysPath_fst_eq (ex : FsPath → Bool) (root : FsPath) (sp : List FsPath) :
    (scanSysPath ex root sp).1 = sp.filterMap
      (fun p => if pathName p = "site-packages" then some (config_dir (venv_path p)) else none) := by
  induction sp with
  | nil => rfl
  | cons path rest ih =>
    by_cases hm : pathName path = "site-packages"
    · by_cases hc : ex (data_dir (venv_path path)) = false ∨ data_dir (venv_path path) = root
      · rw [scanSysPath_cons_drop ex root path rest hm hc]
        simp [List.filterMap_cons, hm, ih]
      · rw [scanSysPath_cons_keep ex root path rest hm hc]
        simp [List.filterMap_cons, hm, ih]
    · rw [scanSysPath_cons_skip ex root path rest hm]
      simp [List.filterMap_cons, hm, ih]

theorem scanSysPath_snd_mem (ex : FsPath → Bool) (root : FsPath) (sp : List FsPath) (d : FsPath) :
    d ∈ (scanSysPath ex root sp).2 ↔
      ∃ p ∈ sp, pathName p = "site-packages" ∧ data_dir (venv_path p) = d ∧
        ex d = true ∧ ¬ d = root := by
  induction sp with
  | nil => simp [scanSysPath]
  | cons path rest ih =>
    by_cases hm : pathName path = "site-packages"
    · by_cases hc : ex (data_dir (venv_path path)) = false ∨ data_dir (venv_path path) = root
      · rw [scanSysPath_cons_drop ex root path rest hm hc]
        rw [ih]
        constructor
        · rintro ⟨p, hp, h⟩
          exact ⟨p, List.mem_cons_of_mem _ hp, h⟩
        · rintro ⟨p, hp, h1, h2, h3, h4⟩
          rcases List.mem_cons.mp hp with he | hp2
          · subst he
            rcases hc with hF | hR
            · rw [h2] at hF
              rw [hF] at h3
              exact absurd h3 (by simp)
            · rw [h2] at hR
              exact absurd hR h4
          · exact ⟨p, hp2, h1, h2, h3, h4⟩
      · rw [scanSysPath_cons_keep ex root path rest hm hc]
        push_neg at hc
        have hext : ex (data_dir (venv_path path)) = true :=
          Bool.not_eq_false _ ▸ (by simpa using hc.1)
        constructor
        · intro hd
          rcases List.mem_cons.mp hd with he | hp2
          · exact ⟨path, List.mem_cons_self path rest, hm, he.symm, he ▸ hext, he ▸ hc.2⟩
          · rcases ih.mp hp2 with ⟨p, hp, h⟩
            exact ⟨p, List.mem_cons_of_mem _ hp, h⟩
        · rintro ⟨p, hp, h1, h2, h3, h4⟩
          rcases List.mem_cons.mp hp with he | hp2
          · subst he
            rw [← h2]
            exact List.mem_cons_self _ _
          · exact List.mem_cons_of_mem _ (ih.mpr ⟨p, hp2, h1, h2, h3, h4⟩)
    · rw [scanSysPath_cons_skip ex root path rest hm]
      rw [ih]
      constructor
      · rintro ⟨p, hp, h⟩
        exact ⟨p, List.mem_cons_of_mem _ hp, h⟩
      · rintro ⟨p, hp, h1, h2, h3, h4⟩
        rcases List.mem_cons.mp hp with he | hp2
        · subst he
          exact absurd h1 hm
        · exact ⟨p, hp2, h1, h2, h3, h4⟩

theorem scanSysPath_snd_ne_root (ex : FsPath → Bool) (root : FsPath) (sp : List FsPath)
    (d : FsPath) (hd : d ∈ (scanSysPath ex root sp).2) : ¬ d = root :=
  ((scanSysPath_snd_mem ex root sp d).mp hd).choose_spec.2.2.2.2

/-! Concrete inputs used for counterexamples and witnesses, mirroring
the spec's example scenario: canonical root R, environment E1 discovered
first, environment E2 discovered second. -/

/-- The canonical root's data dir in the example scenario. -/
def exampleRoot : FsPath := ["", "usr", "share", "jupyter"]

/-- E1's data dir (discovered first). -/
def exampleEnv1 : FsPath := ["", "v1", "share", "jupyter"]

/-- E2's data dir (discovered second). -/
def exampleEnv2 : FsPath := ["", "v2", "share", "jupyter"]

/-- The example filesystem: R has `a.txt`, E1 has `a.txt` and `b.txt`,
E2 has `a.txt`; inodes distinguish the owners. -/
def exampleLayers : FsPath → List Entry := fun r =>
  if r = exampleEnv1 then [⟨["a.txt"], true, 11⟩, ⟨["b.txt"], true, 12⟩]
  else if r = exampleEnv2 then [⟨["a.txt"], true, 21⟩]
  else if r = exampleRoot then [⟨["a.txt"], true, 1⟩]
  else []

/-- An existence oracle on which every path exists. -/
def exAll : FsPath → Bool := fun _ => true

/-- An existence oracle on which no path exists. -/
def exNone : FsPath → Bool := fun _ => false

/-- A `sys.path` whose two entries derive the same environment data
path (`/v/share/jupyter`). -/
def dupSysPath : List FsPath :=
  [["", "v", "lib", "py", "site-packages"], ["", "v", "lib", "py", "site-packages"]]

/-- Claim C1 as stated is false on the code: in the spec's own example
scenario (layer list `[R, E1, E2]` with E1 discovered first), the merged
tree holds E2's `a.txt` (inode 21), not E1's (inode 11) — the reversed
loop processes E2 first and the first writer wins. -/
theorem C1_counterexample :
    (mergeLayers exampleLayers [exampleRoot, exampleEnv1, exampleEnv2]).lookup ["a.txt"]
        = some 21 ∧
    ¬ (mergeLayers exampleLayers [exampleRoot, exampleEnv1, exampleEnv2]).lookup ["a.txt"]
        = some 11 := by
  decide

/-- Claim C1, amended: for discovered layers L1 (earlier) and L2 (later)
both containing a regular file at the same relative path, when no layer
discovered after L2 also contains one there, the merged overlay contains
L2's file — effective precedence is later-discovered environment over
earlier-discovered environment over the canonical base. -/
theorem C1_amended_theorem (le : FsPath → List Entry) (root L1 L2 : FsPath)
    (pre mid post : List FsPath) (q : FsPath) (n1 n2 : Nat)
    (h1 : layerFileAt (le L1) q = some n1)
    (h2 : layerFileAt (le L2) q = some n2)
    (hpost : ∀ r ∈ post, layerFileAt (le r) q = none) :
    (mergeLayers le (root :: (pre ++ L1 :: (mid ++ L2 :: post)))).lookup q = some n2 := by
  rw [lookup_mergeLayers]
  show orO (winnerAcross le (pre ++ L1 :: (mid ++ L2 :: post)) q)
      (layerFileAt (le root) q) = some n2
  have hpostw : winnerAcross le post q = none := winnerAcross_none le post q hpost
  have hL2 : winnerAcross le (L2 :: post) q = some n2 := by
    show orO (winnerAcross le post q) (layerFileAt (le L2) q) = some n2
    rw [hpostw, h2]
    rfl
  have hmid : winnerAcross le (mid ++ L2 :: post) q = some n2 := by
    rw [winnerAcross_append, hL2]
    rfl
  have hL1 : winnerAcross le (L1 :: (mid ++ L2 :: post)) q = some n2 := by
    show orO (winnerAcross le (mid ++ L2 :: post) q) (layerFileAt (le L1) q) = some n2
    rw [hmid]
    rfl
  have hpre : winnerAcross le (pre ++ L1 :: (mid ++ L2 :: post)) q = some n2 := by
    rw [winnerAcross_append, hL1]
    rfl
  rw [hpre]
  rfl

/-- Witness for the amended C1 at the example scenario. -/
theorem C1_witness :
    layerFileAt (exampleLayers exampleEnv1) ["a.txt"] = some 11 ∧
    layerFileAt (exampleLayers exampleEnv2) ["a.txt"] = some 21 ∧
    (mergeLayers exampleLayers [exampleRoot, exampleEnv1, exampleEnv2]).lookup ["a.txt"]
      = some 21 :=
  ⟨by decide, by decide,
   C1_amended_theorem exampleLayers exampleRoot exampleEnv1 exampleEnv2 [] [] [] ["a.txt"]
     11 21 (by decide) (by decide) (fun r hr => absurd hr (List.not_mem_nil r))⟩

/-- Claim C2 as stated is false on the code: with layer list `[R, E1]`
and both holding `a.txt`, the merged tree holds E1's file (inode 11),
not the canonical root's (inode 1) — the root is processed last, so its
link attempt hits `FileExistsError` and is swallowed. -/
theorem C2_counterexample :
    (mergeLayers exampleLayers [exampleRoot, exampleEnv1]).lookup ["a.txt"] = some 11 ∧
    ¬ (mergeLayers exampleLayers [exampleRoot, exampleEnv1]).lookup ["a.txt"] = some 1 := by
  decide

/-- Claim C2, amended: the canonical root's data path is processed last
in the merge pass, and has LOWEST precedence — at every relative path
where some discovered layer has a regular file, the merged value is the
one the discovered-layers-only merge produces; the root's file loses
every such collision. -/
theorem C2_amended_theorem (le : FsPath → List Entry) (root : FsPath) (rest : List FsPath)
    (q r : FsPath) (hr : r ∈ rest) (hsome : (layerFileAt (le r) q).isSome) :
    mergeLayers le (root :: rest) = mergeLayer (mergeLayers le rest) (le root) ∧
    (mergeLayers le (root :: rest)).lookup q = (mergeLayers le rest).lookup q := by
  refine ⟨mergeLayers_cons le root rest, ?_⟩
  rw [lookup_mergeLayers, lookup_mergeLayers]
  show orO (winnerAcross le rest q) (layerFileAt (le root) q) = winnerAcross le rest q
  exact orO_of_isSome _ _ (winnerAcross_isSome_of_mem le rest q r hr hsome)

/-- Witness for the amended C2 at the example scenario. -/
theorem C2_witness :
    mergeLayers exampleLayers [exampleRoot, exampleEnv1]
      = mergeLayer (mergeLayers exampleLayers [exampleEnv1]) (exampleLayers exampleRoot) ∧
    (mergeLayers exampleLayers [exampleRoot, exampleEnv1]).lookup ["a.txt"]
      = (mergeLayers exampleLayers [exampleEnv1]).lookup ["a.txt"] :=
  C2_amended_theorem exampleLayers exampleRoot [exampleEnv1] ["a.txt"] exampleEnv1
    (List.mem_cons_self _ _) (by decide)

/-- Claim C3: a relative path is present in the merged overlay exactly
when some layer of the ordered layer list has an entry there whose
`is_file()` is true; entries with `is_file()` false (directories,
dangling or directory symlinks, other non-regular entries) are never
projected. -/
theorem C3_theorem (le : FsPath → List Entry) (jp : List FsPath) (q : FsPath) :
    ((mergeLayers le jp).lookup q).isSome
      ↔ ∃ r ∈ jp, ∃ e ∈ le r, e.isFile = true ∧ e.rel = q := by
  rw [lookup_mergeLayers]
  exact winnerAcross_isSome_iff le jp q

/-- Claim C4: every file of the merged overlay is a hard link to a
source file of some layer — destination and source carry the same inode,
hence identical content (no data copy is performed by `os.link`). -/
theorem C4_theorem (content : Nat → String) (le : FsPath → List Entry) (jp : List FsPath)
    (q : FsPath) (n : Nat) (h : (mergeLayers le jp).lookup q = some n) :
    ∃ r ∈ jp, ∃ e ∈ le r, e.isFile = true ∧ e.rel = q ∧ e.ino = n
      ∧ content e.ino = content n := by
  rw [lookup_mergeLayers] at h
  rcases winnerAcross_eq_some le jp q n h with ⟨r, hr, e, he, h1, h2, h3⟩
  exact ⟨r, hr, e, he, h1, h2, h3, by rw [h3]⟩

/-- Witness for C4: the merged `b.txt` is E1's inode 12. -/
theorem C4_witness :
    ∃ r ∈ [exampleRoot, exampleEnv1, exampleEnv2], ∃ e ∈ exampleLayers r,
      e.isFile = true ∧ e.rel = ["b.txt"] ∧ e.ino = 12
        ∧ toString e.ino = toString (12 : Nat) :=
  C4_theorem toString exampleLayers [exampleRoot, exampleEnv1, exampleEnv2] ["b.txt"] 12
    (by decide)

/-- Claim C5 as stated is false on the code: two `sys.path` entries that
derive the same environment data path (which exists and differs from the
root's) are both appended, so `jupyter_paths` holds a duplicate. -/
theorem C5_counterexample :
    ¬ (resolve_layers exAll ["", "usr"] dupSysPath).jupyter_paths.Nodup := by
  decide

/-- Claim C5, amended: the only de-duplication performed is against the
canonical root's data path — no entry after the base entry equals it by
normalized string equality; duplicates among discovered data paths can
occur. -/
theorem C5_amended_theorem (ex : FsPath → Bool) (pfx : FsPath) (sysPath : List FsPath)
    (d : FsPath) (hd : d ∈ (resolve_layers ex pfx sysPath).jupyter_paths.tail) :
    ¬ d = root_data_dir pfx := by
  have hmem : d ∈ (scanSysPath ex (root_data_dir pfx) sysPath).2 := hd
  exact scanSysPath_snd_ne_root ex (root_data_dir pfx) sysPath d hmem

/-- Witness for the amended C5. -/
theorem C5_witness :
    (["", "v", "share", "jupyter"] : FsPath)
        ∈ (resolve_layers exAll ["", "usr"] dupSysPath).jupyter_paths.tail ∧
    ¬ (["", "v", "share", "jupyter"] : FsPath) = root_data_dir ["", "usr"] :=
  ⟨by decide,
   C5_amended_theorem exAll ["", "usr"] dupSysPath ["", "v", "share", "jupyter"] (by decide)⟩

/-- Claim C6: for a `site-packages` search-path entry, its derived data
subpath appears among the discovered layers exactly when it exists on
disk and differs (by normalized string equality) from the canonical
root's data path; failing either test just omits it — `resolve_layers`
is total, no error outcome exists. -/
theorem C6_theorem (ex : FsPath → Bool) (pfx : FsPath) (sysPath : List FsPath)
    (path : FsPath) (hmem : path ∈ sysPath) (hmark : pathName path = "site-packages") :
    data_dir (venv_path path) ∈ (resolve_layers ex pfx sysPath).jupyter_paths.tail
      ↔ (ex (data_dir (venv_path path)) = true ∧
          ¬ data_dir (venv_path path) = root_data_dir pfx) := by
  show data_dir (venv_path path) ∈ (scanSysPath ex (root_data_dir pfx) sysPath).2 ↔ _
  rw [scanSysPath_snd_mem]
  constructor
  · rintro ⟨p, hp, h1, h2, h3, h4⟩
    exact ⟨h3, h4⟩
  · rintro ⟨h3, h4⟩
    exact ⟨path, hmem, hmark, rfl, h3, h4⟩

/-- Witness for C6. -/
theorem C6_witness :
    data_dir (venv_path ["", "v", "lib", "py", "site-packages"])
        ∈ (resolve_layers exAll ["", "usr"] dupSysPath).jupyter_paths.tail
      ↔ (exAll (data_dir (venv_path ["", "v", "lib", "py", "site-packages"])) = true ∧
          ¬ data_dir (venv_path ["", "v", "lib", "py", "site-packages"])
              = root_data_dir ["", "usr"]) :=
  C6_theorem exAll ["", "usr"] dupSysPath ["", "v", "lib", "py", "site-packages"]
    (by decide) (by decide)

/-- Claim C7: `config_paths` holds exactly one derived config subpath
per `site-packages` search-path entry, unconditionally (no existence or
duplicate test — the characterization does not mention the oracle `ex`),
in encounter order without de-duplication, and it is published joined by
the platform path separator alongside the merged directory's path. -/
theorem C7_theorem (ex : FsPath → Bool) (le : FsPath → List Entry) (pfx : FsPath)
    (sysPath : List FsPath) (merged_dir : FsPath) :
    (resolve_layers ex pfx sysPath).config_paths
      = sysPath.filterMap (fun p =>
          if pathName p = "site-packages" then some (config_dir (venv_path p)) else none) ∧
    (setup_merged_jupyter_environment ex le pfx sysPath merged_dir).2
      = ⟨renderPath merged_dir,
         String.intercalate pathsep
           (((resolve_layers ex pfx sysPath).config_paths).map renderPath)⟩ :=
  ⟨scanSysPath_fst_eq ex (root_data_dir pfx) sysPath, rfl⟩

/-- Claim C8: the projection step swallows exactly the
"destination already exists" outcome of the link attempt (leaving the
first-written file in place); any mkdir error and any other link error
propagate out of the per-layer walk uncaught. -/
theorem C8_theorem :
    (∀ (dest : MergedTree) (rel : FsPath) (ino : Nat),
        project_file dest rel ino none (some FsError.fileExists) = Except.ok dest) ∧
    (∀ (dest : MergedTree) (rel : FsPath) (ino : Nat) (e : FsError),
        ¬ e = FsError.fileExists →
        project_file dest rel ino none (some e) = Except.error e) ∧
    (∀ (dest : MergedTree) (rel : FsPath) (ino : Nat) (e : FsError) (lf : Option FsError),
        project_file dest rel ino (some e) lf = Except.error e) ∧
    (∀ (dest : MergedTree) (rel : FsPath) (ino n : Nat),
        dest.lookup rel = some n →
        project_file dest rel ino none none = Except.ok dest) ∧
    (∀ (faults : FsPath → Option FsError × Option FsError) (dest : MergedTree)
        (ent : Entry) (rest : List Entry) (e : FsError),
        ent.isFile = true → faults ent.rel = (none, some e) → ¬ e = FsError.fileExists →
        mergeLayerE faults dest (ent :: rest) = Except.error e) := by
  refine ⟨?_, ?_, ?_, ?_, ?_⟩
  · intro dest rel ino
    rfl
  · intro dest rel ino e he
    simp [project_file, he]
  · intro dest rel ino e lf
    rfl
  · intro dest rel ino n h
    simp [project_file, h]
  · intro faults dest ent rest e hf hfa he
    simp [mergeLayerE, hf, hfa, project_file, he]

/-- Witness for C8: a permission error on the link, an organic
collision, and a disk-full error inside a layer walk. -/
theorem C8_witness :
    project_file [] ["a.txt"] 7 none (some FsError.permissionDenied)
        = Except.error FsError.permissionDenied ∧
    project_file [(["a.txt"], 5)] ["a.txt"] 7 none none = Except.ok [(["a.txt"], 5)] ∧
    mergeLayerE (fun _ => (none, some FsError.diskFull)) [] [⟨["a.txt"], true, 7⟩]
        = Except.error FsError.diskFull :=
  ⟨C8_theorem.2.1 [] ["a.txt"] 7 FsError.permissionDenied (by decide),
   C8_theorem.2.2.2.1 [(["a.txt"], 5)] ["a.txt"] 7 5 rfl,
   C8_theorem.2.2.2.2 (fun _ => (none, some FsError.diskFull)) [] ⟨["a.txt"], true, 7⟩ []
     FsError.diskFull rfl rfl (by decide)⟩

/-- Claim C9: delivery of either handled termination signal (SIGTERM or
SIGINT), at any session state — including mid-population — runs the one
shared handler, which removes the merged overlay directory and exits
with status 0; no further work is modelled after the exit. -/
theorem C9_theorem (st : SessionState) (s : Nat) (h : s = SIGTERM ∨ s = SIGINT) :
    deliver_signal s st = { merged_dir := none, exitCode := some 0 } := by
  unfold deliver_signal signal_handler
  rw [if_pos h]
  rfl

/-- Witness for C9: SIGINT delivered mid-population. -/
theorem C9_witness :
    deliver_signal SIGINT { merged_dir := some [(["a.txt"], 7)], exitCode := none }
      = { merged_dir := none, exitCode := some 0 } :=
  C9_theorem { merged_dir := some [(["a.txt"], 7)], exitCode := none } SIGINT (Or.inr rfl)

/-- Claim C10: the canonical root's data path heads `jupyter_paths`
under EVERY existence oracle (no existence check is applied to it), and
when its walk yields nothing (the directory does not exist, so
`rglob` produces no entries) the merge completes and equals the merge of
the discovered layers alone. -/
theorem C10_theorem (ex : FsPath → Bool) (le : FsPath → List Entry) (pfx : FsPath)
    (sysPath : List FsPath) (hroot : le (root_data_dir pfx) = []) :
    (resolve_layers ex pfx sysPath).jupyter_paths.head? = some (root_data_dir pfx) ∧
    mergeLayers le (resolve_layers ex pfx sysPath).jupyter_paths
      = mergeLayers le (resolve_layers ex pfx sysPath).jupyter_paths.tail := by
  refine ⟨rfl, ?_⟩
  show mergeLayers le (root_data_dir pfx :: (scanSysPath ex (root_data_dir pfx) sysPath).2)
      = mergeLayers le (scanSysPath ex (root_data_dir pfx) sysPath).2
  rw [mergeLayers_cons, hroot]
  rfl

/-- Witness for C10: an oracle on which nothing exists, and a root whose
layer walk is empty. -/
theorem C10_witness :
    (resolve_layers exNone ["", "nosuch"] dupSysPath).jupyter_paths.head?
        = some (root_data_dir ["", "nosuch"]) ∧
    mergeLayers exampleLayers (resolve_layers exNone ["", "nosuch"] dupSysPath).jupyter_paths
      = mergeLayers exampleLayers
          (resolve_layers exNone ["", "nosuch"] dupSysPath).jupyter_paths.tail :=
  C10_theorem exNone exampleLayers ["", "nosuch"] dupSysPath (by decide)

end JuvSetup
